import Mathlib

/-!
# Verification of the investment-research assistant (`invest.py`)

A shallow embedding of the deterministic orchestration logic of the
single-file Python program, together with proofs of the specification's
claims about it.  External effects (LLM calls, HTTP requests, the
filesystem, interactive input) are modelled as explicit parameters:
an oracle function or an outcome value stands for the result an external
call would have produced, and the embedded function computes exactly what
the Python code computes from that result.

Python values that flow through the aggregation pipeline are arbitrary
JSON values.  The embedding represents them with `JAtom` (a string or an
opaque non-string value distinguished by a tag) and `TickerElem` (a
string, an object with atomic field values, or an opaque other shape).
Python `==` on these values is modelled by decidable equality; two
distinct opaque values carry distinct tags.
-/

/-- A Python/JSON value as it appears inside the `key_players` list or as a
field value of a ticker object: a string, or some other value (number,
null, nested object, ...) that the aggregation code only ever compares for
equality, modelled opaquely by a tag. -/
inductive JAtom where
  | s (v : String)
  | other (tag : Nat)
deriving DecidableEq, Repr

/-- One element of the `tickers` list of an extraction result: a bare JSON
string, a JSON object (a Python dict, modelled as an association list with
atomic values; `json.loads` gives dicts whose keys are unique), or any
other JSON shape. -/
inductive TickerElem where
  | str (s : String)
  | dict (fields : List (String × JAtom))
  | other (tag : Nat)
deriving DecidableEq, Repr

/-- The body of the player loop of `NewsAnalyzer.process_news_data`
(src/invest.py lines 397-399): append the player unless it is already
present. -/
def addPlayer (all_key_players : List JAtom) (player : JAtom) : List JAtom :=
  if player ∈ all_key_players then all_key_players
  else all_key_players ++ [player]

/-- The body of the ticker loop of `NewsAnalyzer.process_news_data`
(src/invest.py lines 401-414): a string is appended as-is unless already
present; a dict contributes its `symbol` field if it has one, else its
`ticker` field if it has one, deduplicated the same way; anything else is
skipped. -/
def addTicker (all_tickers : List JAtom) (ticker : TickerElem) : List JAtom :=
  match ticker with
  | .str s =>
      if JAtom.s s ∈ all_tickers then all_tickers
      else all_tickers ++ [JAtom.s s]
  | .dict fields =>
      match fields.lookup "symbol" with
      | some symbol =>
          if symbol ∈ all_tickers then all_tickers
          else all_tickers ++ [symbol]
      | none =>
          match fields.lookup "ticker" with
          | some ticker_symbol =>
              if ticker_symbol ∈ all_tickers then all_tickers
              else all_tickers ++ [ticker_symbol]
          | none => all_tickers
  | .other _ => all_tickers

/-- Specification-side normalization of one ticker element, following the
spec's words: a bare string is used as-is, an object carrying a `symbol`
field or a `ticker` field contributes that field's value (`symbol`
first), any other shape is ignored. -/
def normTicker : TickerElem → Option JAtom
  | .str s => some (JAtom.s s)
  | .dict fields =>
      match fields.lookup "symbol" with
      | some v => some v
      | none => fields.lookup "ticker"
  | .other _ => none

/-- Specification-side first-seen deduplication: keep the first occurrence
of every value, in order of first appearance. -/
def dedupFirst : List JAtom → List JAtom
  | [] => []
  | x :: xs => x :: dedupFirst (xs.filter (fun y => decide (y ≠ x)))
termination_by l => l.length
decreasing_by
  simp only [List.length_cons]
  have := List.length_filter_le (fun y => decide (y ≠ x)) xs
  omega

theorem mem_dedupFirst (v : JAtom) (l : List JAtom) : v ∈ dedupFirst l ↔ v ∈ l := by
  induction l using dedupFirst.induct with
  | case1 => simp [dedupFirst]
  | case2 x xs ih =>
      rw [dedupFirst]
      by_cases hv : v = x
      · subst hv; simp
      · simp only [List.mem_cons, ih, List.mem_filter, decide_eq_true_eq]
        constructor
        · rintro (h | ⟨h, _⟩)
          · exact absurd h hv
          · exact Or.inr h
        · rintro (h | h)
          · exact absurd h hv
          · exact Or.inr ⟨h, hv⟩

theorem nodup_dedupFirst (l : List JAtom) : (dedupFirst l).Nodup := by
  induction l using dedupFirst.induct with
  | case1 => simp [dedupFirst]
  | case2 x xs ih =>
      rw [dedupFirst]
      refine List.nodup_cons.mpr ⟨?_, ih⟩
      intro hx
      have := (mem_dedupFirst x _).mp hx
      simp at this

theorem foldl_addPlayer_eq_dedupFirst (vs : List JAtom) (acc : List JAtom) :
    vs.foldl addPlayer acc = acc ++ dedupFirst (vs.filter (fun v => decide (v ∉ acc))) := by
  induction vs generalizing acc with
  | nil => simp [dedupFirst]
  | cons v vs ih =>
      by_cases hv : v ∈ acc
      · have hstep : addPlayer acc v = acc := by simp [addPlayer, hv]
        rw [List.foldl_cons, hstep, ih]
        have hfilter : (v :: vs).filter (fun w => decide (w ∉ acc))
            = vs.filter (fun w => decide (w ∉ acc)) := by
          simp [List.filter_cons, hv]
        rw [hfilter]
      · have hstep : addPlayer acc v = acc ++ [v] := by simp [addPlayer, hv]
        rw [List.foldl_cons, hstep, ih]
        have hfilter : (v :: vs).filter (fun w => decide (w ∉ acc))
            = v :: vs.filter (fun w => decide (w ∉ acc)) := by
          simp [List.filter_cons, hv]
        rw [hfilter, dedupFirst]
        have hff : (vs.filter (fun w => decide (w ∉ acc))).filter (fun y => decide (y ≠ v))
            = vs.filter (fun w => decide (w ∉ acc ++ [v])) := by
          rw [List.filter_filter]
          apply List.filter_congr
          intro w _
          by_cases h1 : w = v <;> by_cases h2 : w ∈ acc <;>
            simp [h1, h2, List.mem_append]
        rw [hff, List.append_assoc]
        rfl

/-- Folding the ticker loop is folding the player-style insertion over the
stream of normalized ticker values. -/
theorem foldl_addTicker_eq (ts : List TickerElem) (acc : List JAtom) :
    ts.foldl addTicker acc = (ts.filterMap normTicker).foldl addPlayer acc := by
  induction ts generalizing acc with
  | nil => rfl
  | cons t ts ih =>
      rw [List.foldl_cons]
      cases t with
      | str s =>
          simp only [List.filterMap_cons, normTicker]
          rw [List.foldl_cons, ih]
          rfl
      | dict fields =>
          simp only [List.filterMap_cons, normTicker]
          cases hs : fields.lookup "symbol" with
          | some v =>
              simp only [addTicker, hs]
              rw [List.foldl_cons, ih]
              rfl
          | none =>
              cases ht : fields.lookup "ticker" with
              | some w =>
                  simp only [addTicker, hs, ht]
                  rw [List.foldl_cons, ih]
                  rfl
              | none =>
                  simp only [addTicker, hs, ht]
                  exact ih acc
      | other tag =>
          simp only [List.filterMap_cons, normTicker]
          exact ih acc

/-- An element of the news-discovery response list, as consumed by
`process_news_data`: only the presence/value of its `url`, `title` and
`description` keys matter (src/invest.py lines 363-370); `title` and
`description` are only printed. -/
structure Article where
  url : Option String
  title : Option String
  description : Option String
deriving DecidableEq, Repr

/-- The object returned by `extract_insights_from_url`: a parsed JSON
document of which `process_news_data` reads the keys `insights`,
`key_players` and `tickers` via `dict.get(key, [])`; a missing key is
`none`. -/
structure ExtractDoc where
  insights : Option (List JAtom)
  key_players : Option (List JAtom)
  tickers : Option (List TickerElem)
deriving DecidableEq, Repr

/-- Python's `result.get(key, [])`. -/
def pyGetList {α : Type} (o : Option (List α)) : List α := o.getD []

/-- The record appended to `all_insights` for one URL
(src/invest.py lines 389-394). -/
structure Insight where
  url : String
  insights : List JAtom
  key_players : List JAtom
  tickers : List TickerElem
deriving DecidableEq, Repr

/-- The mutable session aggregates held on the `Config` object
(src/invest.py lines 97-100). -/
structure Config where
  all_insights : List Insight
  all_key_players : List JAtom
  all_tickers : List JAtom
deriving DecidableEq, Repr

/-- The empty record returned by `extract_insights_from_url` when the LLM
response text fails to parse as JSON (src/invest.py line 352): a dict with
the three keys present, each mapped to an empty list. -/
def emptyExtractDoc : ExtractDoc :=
  { insights := some [], key_players := some [], tickers := some [] }

/-- `NewsAnalyzer.extract_insights_from_url` (src/invest.py lines 348-352),
after the LLM call has produced `output_text`: `json.loads` is modelled by
the `loads` parameter (`none` = `json.JSONDecodeError`); on failure the
fixed empty record is returned instead of raising. -/
def extract_insights_from_url (loads : String → Option ExtractDoc)
    (output_text : String) : ExtractDoc :=
  match loads output_text with
  | some result => result
  | none => emptyExtractDoc

/-- One iteration of the per-URL loop of `NewsAnalyzer.process_news_data`
(src/invest.py lines 386-414): append the insight record, then fold the
player loop and the ticker loop into the aggregates. -/
def processArticleFold (extract : String → ExtractDoc) (c : Config)
    (url : String) : Config :=
  let result := extract url
  { all_insights := c.all_insights ++
      [{ url := url
         insights := pyGetList result.insights
         key_players := pyGetList result.key_players
         tickers := pyGetList result.tickers }]
    all_key_players := (pyGetList result.key_players).foldl addPlayer c.all_key_players
    all_tickers := (pyGetList result.tickers).foldl addTicker c.all_tickers }

/-- `NewsAnalyzer.process_news_data` (src/invest.py lines 354-416): collect
the URLs present in the input; if none, return `false` without touching the
aggregates; otherwise reset the three aggregates and process every URL in
order, returning `true`.  The per-URL extraction is the oracle `extract`
(in the program it is `extract_insights_from_url` applied to the LLM
response for that URL). -/
def process_news_data (extract : String → ExtractDoc) (cfg : Config)
    (news_data : List Article) : Config × Bool :=
  let urls := news_data.filterMap Article.url
  if urls.isEmpty then (cfg, false)
  else
    let cfg0 : Config := { all_insights := [], all_key_players := [], all_tickers := [] }
    (urls.foldl (processArticleFold extract) cfg0, true)

/-- The URLs `process_news_data` extracts from its input. -/
def urlsOf (news_data : List Article) : List String :=
  news_data.filterMap Article.url

/-- The stream of key players over a list of URLs, in processing order. -/
def playerStream (extract : String → ExtractDoc) (urls : List String) : List JAtom :=
  urls.flatMap (fun u => pyGetList (extract u).key_players)

/-- The stream of raw ticker elements over a list of URLs, in processing
order. -/
def tickerStream (extract : String → ExtractDoc) (urls : List String) : List TickerElem :=
  urls.flatMap (fun u => pyGetList (extract u).tickers)

theorem foldl_process_players (extract : String → ExtractDoc)
    (urls : List String) (c : Config) :
    (urls.foldl (processArticleFold extract) c).all_key_players
      = (playerStream extract urls).foldl addPlayer c.all_key_players := by
  induction urls generalizing c with
  | nil => rfl
  | cons u urls ih =>
      rw [List.foldl_cons, ih]
      simp [playerStream, processArticleFold, List.foldl_append]

theorem foldl_process_tickers (extract : String → ExtractDoc)
    (urls : List String) (c : Config) :
    (urls.foldl (processArticleFold extract) c).all_tickers
      = (tickerStream extract urls).foldl addTicker c.all_tickers := by
  induction urls generalizing c with
  | nil => rfl
  | cons u urls ih =>
      rw [List.foldl_cons, ih]
      simp [tickerStream, processArticleFold, List.foldl_append]

theorem process_news_data_of_empty (extract : String → ExtractDoc) (cfg : Config)
    (nd : List Article) (h : urlsOf nd = []) :
    process_news_data extract cfg nd = (cfg, false) := by
  simp only [urlsOf] at h
  simp [process_news_data, h]

theorem process_news_data_of_ne (extract : String → ExtractDoc) (cfg : Config)
    (nd : List Article) (h : urlsOf nd ≠ []) :
    process_news_data extract cfg nd
      = ((urlsOf nd).foldl (processArticleFold extract)
          { all_insights := [], all_key_players := [], all_tickers := [] }, true) := by
  simp only [urlsOf] at h ⊢
  have e : (nd.filterMap Article.url).isEmpty = false := by
    cases hc : nd.filterMap Article.url with
    | nil => exact absurd hc h
    | cons x xs => rfl
  simp [process_news_data, e]

theorem filter_not_mem_nil (l : List JAtom) :
    l.filter (fun v => decide (v ∉ ([] : List JAtom))) = l := by
  simp

theorem success_players (extract : String → ExtractDoc) (cfg : Config)
    (nd : List Article) (h : urlsOf nd ≠ []) :
    (process_news_data extract cfg nd).1.all_key_players
      = dedupFirst (playerStream extract (urlsOf nd)) := by
  rw [process_news_data_of_ne extract cfg nd h]
  dsimp only
  rw [foldl_process_players, foldl_addPlayer_eq_dedupFirst]
  simp [filter_not_mem_nil]

theorem success_tickers (extract : String → ExtractDoc) (cfg : Config)
    (nd : List Article) (h : urlsOf nd ≠ []) :
    (process_news_data extract cfg nd).1.all_tickers
      = dedupFirst ((tickerStream extract (urlsOf nd)).filterMap normTicker) := by
  rw [process_news_data_of_ne extract cfg nd h]
  dsimp only
  rw [foldl_process_tickers, foldl_addTicker_eq, foldl_addPlayer_eq_dedupFirst]
  simp [filter_not_mem_nil]

/-- C1: for every input whose articles contain at least one `url`, the
ticker aggregate built by `process_news_data` is exactly the first-seen
deduplication of the stream of normalized ticker values (a bare string
contributes itself, a dict contributes its `symbol` or `ticker` field
value, any other shape contributes nothing): it contains exactly one entry
per distinct normalized symbol, the entries appear in first-seen order,
and every entry traces back to some input ticker element. -/
theorem ticker_aggregate_first_seen_normalized (extract : String → ExtractDoc)
    (cfg : Config) (nd : List Article) (h : urlsOf nd ≠ []) :
    (process_news_data extract cfg nd).1.all_tickers
        = dedupFirst ((tickerStream extract (urlsOf nd)).filterMap normTicker)
      ∧ (process_news_data extract cfg nd).1.all_tickers.Nodup
      ∧ (∀ v, v ∈ (process_news_data extract cfg nd).1.all_tickers
            ↔ ∃ t ∈ tickerStream extract (urlsOf nd), normTicker t = some v) := by
  have he := success_tickers extract cfg nd h
  refine ⟨he, ?_, ?_⟩
  · rw [he]; exact nodup_dedupFirst _
  · intro v
    rw [he, mem_dedupFirst, List.mem_filterMap]

/-- A concrete extraction oracle used to exercise the aggregation claims:
article `u1` yields a duplicate player, a string ticker, a `ticker`-keyed
dict and an unusable shape; article `u2` yields a case-variant player and
a dict carrying both `symbol` and `ticker` keys plus a repeated string
ticker. -/
def exExtract : String → ExtractDoc := fun u =>
  if u = "u1" then
    { insights := some [JAtom.s "i1"]
      key_players := some [JAtom.s "Apple", JAtom.s "Tesla", JAtom.s "Apple"]
      tickers := some [TickerElem.str "AAPL",
                       TickerElem.dict [("ticker", JAtom.s "TSLA")],
                       TickerElem.other 0] }
  else
    { insights := some []
      key_players := some [JAtom.s "apple"]
      tickers := some [TickerElem.dict [("symbol", JAtom.s "MSFT"), ("ticker", JAtom.s "SKIPPED")],
                       TickerElem.str "AAPL"] }

/-- A concrete news-discovery result with two usable articles and one
article lacking a `url` key. -/
def exNews : List Article :=
  [{ url := some "u1", title := some "t1", description := none },
   { url := none, title := some "no-url", description := none },
   { url := some "u2", title := some "t2", description := some "d" }]

/-- An initial session state holding results of a previous session. -/
def exCfg : Config :=
  { all_insights := [{ url := "old", insights := [], key_players := [], tickers := [] }]
    all_key_players := [JAtom.s "OldCo"]
    all_tickers := [JAtom.s "OLD"] }

theorem ticker_aggregate_first_seen_normalized_witness :
    urlsOf exNews ≠ []
      ∧ ((process_news_data exExtract exCfg exNews).1.all_tickers
            = dedupFirst ((tickerStream exExtract (urlsOf exNews)).filterMap normTicker)
          ∧ (process_news_data exExtract exCfg exNews).1.all_tickers.Nodup
          ∧ (∀ v, v ∈ (process_news_data exExtract exCfg exNews).1.all_tickers
                ↔ ∃ t ∈ tickerStream exExtract (urlsOf exNews), normTicker t = some v)) :=
  ⟨by decide, ticker_aggregate_first_seen_normalized exExtract exCfg exNews (by decide)⟩

/-- C2: assuming the session aggregates were duplicate-free before the
call (as they are at startup and after every successful call), after
`process_news_data` completes the key-player aggregate and the ticker
aggregate contain no two entries equal under string equality, and on
success each equals the first-seen deduplication of its input stream —
insertion order, with no other reordering or sorting applied. -/
theorem aggregates_nodup_insertion_order (extract : String → ExtractDoc)
    (cfg : Config) (nd : List Article)
    (h1 : cfg.all_key_players.Nodup) (h2 : cfg.all_tickers.Nodup) :
    ((process_news_data extract cfg nd).1.all_key_players.Nodup
        ∧ (process_news_data extract cfg nd).1.all_tickers.Nodup)
      ∧ ((process_news_data extract cfg nd).2 = true →
          (process_news_data extract cfg nd).1.all_key_players
              = dedupFirst (playerStream extract (urlsOf nd))
            ∧ (process_news_data extract cfg nd).1.all_tickers
              = dedupFirst ((tickerStream extract (urlsOf nd)).filterMap normTicker)) := by
  by_cases hc : urlsOf nd = []
  · have hp := process_news_data_of_empty extract cfg nd hc
    rw [hp]
    exact ⟨⟨h1, h2⟩, by intro hf; cases hf⟩
  · have hp := success_players extract cfg nd hc
    have ht := success_tickers extract cfg nd hc
    exact ⟨⟨hp ▸ nodup_dedupFirst _, ht ▸ nodup_dedupFirst _⟩, fun _ => ⟨hp, ht⟩⟩

theorem aggregates_nodup_insertion_order_witness :
    (exCfg.all_key_players.Nodup ∧ exCfg.all_tickers.Nodup)
      ∧ (((process_news_data exExtract exCfg exNews).1.all_key_players.Nodup
            ∧ (process_news_data exExtract exCfg exNews).1.all_tickers.Nodup)
          ∧ ((process_news_data exExtract exCfg exNews).2 = true →
              (process_news_data exExtract exCfg exNews).1.all_key_players
                  = dedupFirst (playerStream exExtract (urlsOf exNews))
                ∧ (process_news_data exExtract exCfg exNews).1.all_tickers
                  = dedupFirst ((tickerStream exExtract (urlsOf exNews)).filterMap normTicker))) :=
  ⟨⟨by decide, by decide⟩,
   aggregates_nodup_insertion_order exExtract exCfg exNews (by decide) (by decide)⟩

/-- C3: if no input article contains a `url` key, `process_news_data`
returns `false` and leaves the three session aggregates exactly as they
were before the call — the reset happens only after at least one URL is
known to exist, so a failed call never clears a previous session's
results. -/
theorem no_urls_returns_false_state_unchanged (extract : String → ExtractDoc)
    (cfg : Config) (nd : List Article) (h : ∀ a ∈ nd, a.url = none) :
    process_news_data extract cfg nd = (cfg, false) := by
  apply process_news_data_of_empty
  simp only [urlsOf]
  exact List.filterMap_eq_nil_iff.mpr h

theorem no_urls_returns_false_state_unchanged_witness :
    (∀ a ∈ [({ url := none, title := some "t", description := none } : Article),
            { url := none, title := none, description := some "d" }], a.url = none)
      ∧ process_news_data exExtract exCfg
          [{ url := none, title := some "t", description := none },
           { url := none, title := none, description := some "d" }] = (exCfg, false) :=
  ⟨by decide,
   no_urls_returns_false_state_unchanged exExtract exCfg
     [{ url := none, title := some "t", description := none },
      { url := none, title := none, description := some "d" }] (by decide)⟩

/-- C4: an LLM response text that fails to parse as JSON makes
`extract_insights_from_url` return the empty record instead of raising,
and a batch containing such an article produces exactly the same player
and ticker aggregates as the batch without it — one parse failure never
aborts or perturbs the rest of the batch. -/
theorem parse_failure_empty_record_batch_unaffected
    (loads : String → Option ExtractDoc) (respond : String → String)
    (cfg : Config) (nd1 nd2 : List Article) (a : Article) (u : String)
    (hu : a.url = some u) (hfail : loads (respond u) = none)
    (hne : urlsOf (nd1 ++ nd2) ≠ []) :
    extract_insights_from_url loads (respond u) = emptyExtractDoc
      ∧ (process_news_data (fun v => extract_insights_from_url loads (respond v))
          cfg (nd1 ++ a :: nd2)).2 = true
      ∧ (process_news_data (fun v => extract_insights_from_url loads (respond v))
          cfg (nd1 ++ a :: nd2)).1.all_key_players
        = (process_news_data (fun v => extract_insights_from_url loads (respond v))
            cfg (nd1 ++ nd2)).1.all_key_players
      ∧ (process_news_data (fun v => extract_insights_from_url loads (respond v))
          cfg (nd1 ++ a :: nd2)).1.all_tickers
        = (process_news_data (fun v => extract_insights_from_url loads (respond v))
            cfg (nd1 ++ nd2)).1.all_tickers := by
  have hx : extract_insights_from_url loads (respond u) = emptyExtractDoc := by
    simp [extract_insights_from_url, hfail]
  have hurls : urlsOf (nd1 ++ a :: nd2) = urlsOf nd1 ++ u :: urlsOf nd2 := by
    simp [urlsOf, List.filterMap_append, List.filterMap_cons, hu]
  have hurls2 : urlsOf (nd1 ++ nd2) = urlsOf nd1 ++ urlsOf nd2 := by
    simp [urlsOf, List.filterMap_append]
  have hne1 : urlsOf (nd1 ++ a :: nd2) ≠ [] := by
    rw [hurls]
    intro hcontra
    rcases List.append_eq_nil.mp hcontra with ⟨_, h2⟩
    cases h2
  have hps : playerStream (fun v => extract_insights_from_url loads (respond v))
        (urlsOf (nd1 ++ a :: nd2))
      = playerStream (fun v => extract_insights_from_url loads (respond v))
        (urlsOf (nd1 ++ nd2)) := by
    rw [hurls, hurls2]
    simp [playerStream, List.flatMap_append, hx, emptyExtractDoc, pyGetList]
  have hts : tickerStream (fun v => extract_insights_from_url loads (respond v))
        (urlsOf (nd1 ++ a :: nd2))
      = tickerStream (fun v => extract_insights_from_url loads (respond v))
        (urlsOf (nd1 ++ nd2)) := by
    rw [hurls, hurls2]
    simp [tickerStream, List.flatMap_append, hx, emptyExtractDoc, pyGetList]
  refine ⟨hx, ?_, ?_, ?_⟩
  · rw [process_news_data_of_ne _ cfg _ hne1]
  · rw [success_players _ cfg _ hne1, success_players _ cfg _ hne, hps]
  · rw [success_tickers _ cfg _ hne1, success_tickers _ cfg _ hne, hts]

/-- A JSON-parse oracle that fails exactly on the text "BAD". -/
def exLoads : String → Option ExtractDoc := fun s =>
  if s = "BAD" then none
  else some { insights := some []
              key_players := some [JAtom.s "NVidia"]
              tickers := some [TickerElem.str "NVDA"] }

/-- An LLM-response oracle: article `u0` gets the unparseable text. -/
def exRespond : String → String := fun u => if u = "u0" then "BAD" else "GOOD"

/-- The failing article used for the parse-failure witness. -/
def exBadArticle : Article := { url := some "u0", title := some "bad", description := none }

/-- The sound article used for the parse-failure witness. -/
def exGoodArticle : Article := { url := some "u1", title := some "good", description := none }

theorem parse_failure_empty_record_batch_unaffected_witness :
    exBadArticle.url = some "u0"
      ∧ exLoads (exRespond "u0") = none
      ∧ urlsOf ([exGoodArticle] ++ []) ≠ []
      ∧ (extract_insights_from_url exLoads (exRespond "u0") = emptyExtractDoc
          ∧ (process_news_data (fun v => extract_insights_from_url exLoads (exRespond v))
              exCfg ([exGoodArticle] ++ exBadArticle :: [])).2 = true
          ∧ (process_news_data (fun v => extract_insights_from_url exLoads (exRespond v))
              exCfg ([exGoodArticle] ++ exBadArticle :: [])).1.all_key_players
            = (process_news_data (fun v => extract_insights_from_url exLoads (exRespond v))
                exCfg ([exGoodArticle] ++ [])).1.all_key_players
          ∧ (process_news_data (fun v => extract_insights_from_url exLoads (exRespond v))
              exCfg ([exGoodArticle] ++ exBadArticle :: [])).1.all_tickers
            = (process_news_data (fun v => extract_insights_from_url exLoads (exRespond v))
                exCfg ([exGoodArticle] ++ [])).1.all_tickers) :=
  ⟨rfl, by decide, by decide,
   parse_failure_empty_record_batch_unaffected exLoads exRespond exCfg
     [exGoodArticle] [] exBadArticle "u0" rfl (by decide) (by decide)⟩

/-- C10: when a ticker element is a dict carrying both a `symbol` key and
a `ticker` key, the aggregation contributes the `symbol` field's value
(the `symbol` branch is checked first), and the `ticker` field's value is
never added for that element. -/
theorem dict_symbol_branch_shadows_ticker (fields : List (String × JAtom))
    (v w : JAtom) (acc : List JAtom)
    (hs : fields.lookup "symbol" = some v) (_ht : fields.lookup "ticker" = some w) :
    addTicker acc (TickerElem.dict fields) = (if v ∈ acc then acc else acc ++ [v])
      ∧ (w ∉ acc → w ≠ v → w ∉ addTicker acc (TickerElem.dict fields)) := by
  constructor
  · simp [addTicker, hs]
  · intro hw hne
    have hrw : addTicker acc (TickerElem.dict fields)
        = if v ∈ acc then acc else acc ++ [v] := by
      simp [addTicker, hs]
    rw [hrw]
    by_cases hv : v ∈ acc
    · simpa [hv] using hw
    · rw [if_neg hv]
      intro hmem
      rcases List.mem_append.mp hmem with h | h
      · exact hw h
      · exact hne (List.mem_singleton.mp h)

theorem dict_symbol_branch_shadows_ticker_witness :
    ([("symbol", JAtom.s "MSFT"), ("ticker", JAtom.s "TSLA")].lookup "symbol"
        = some (JAtom.s "MSFT"))
      ∧ ([("symbol", JAtom.s "MSFT"), ("ticker", JAtom.s "TSLA")].lookup "ticker"
        = some (JAtom.s "TSLA"))
      ∧ (addTicker [] (TickerElem.dict [("symbol", JAtom.s "MSFT"), ("ticker", JAtom.s "TSLA")])
            = (if JAtom.s "MSFT" ∈ ([] : List JAtom) then [] else [] ++ [JAtom.s "MSFT"])
          ∧ (JAtom.s "TSLA" ∉ ([] : List JAtom) → JAtom.s "TSLA" ≠ JAtom.s "MSFT" →
              JAtom.s "TSLA" ∉ addTicker []
                (TickerElem.dict [("symbol", JAtom.s "MSFT"), ("ticker", JAtom.s "TSLA")]))) :=
  ⟨by decide, by decide,
   dict_symbol_branch_shadows_ticker [("symbol", JAtom.s "MSFT"), ("ticker", JAtom.s "TSLA")]
     (JAtom.s "MSFT") (JAtom.s "TSLA") [] (by decide) (by decide)⟩

/-- The outcome of one external HTTP request together with response
parsing, from the caller's point of view: either a parsed value, or an
exception carrying Python's `str(e)` text. -/
inductive HttpOutcome (α : Type) where
  | ok (data : α)
  | exc (msg : String)
deriving DecidableEq, Repr

/-- The parsed body of an Alpha Vantage GLOBAL_QUOTE response as consumed
by `get_stock_info`: the object stored under the "Global Quote" key when
that key is present (its string fields as an association list), `none`
when absent. -/
structure QuoteData where
  globalQuote : Option (List (String × String))
deriving DecidableEq, Repr

/-- `StockAnalyzer.get_stock_info` (src/invest.py lines 210-225), given
the outcome of the quote request: return the "05. price" field of the
"Global Quote" object if both are present, else a could-not-retrieve
message naming the ticker; any exception during request or parsing yields
an error string embedding the exception text. -/
def get_stock_info (ticker_symbol : String) (outcome : HttpOutcome QuoteData) : String :=
  match outcome with
  | .ok data =>
      match data.globalQuote with
      | some gq =>
          match gq.lookup "05. price" with
          | some price => price
          | none => "Could not retrieve price for " ++ ticker_symbol
      | none => "Could not retrieve price for " ++ ticker_symbol
  | .exc e => "Error: " ++ e

/-- C5: `get_stock_info` always returns a string (it is a total function
of the request outcome, so it never raises to its caller): the price
field when the response carries `Global Quote`/`05. price`, a
could-not-retrieve message naming the ticker otherwise, and an error
string embedding the exception text when the request or parsing raised. -/
theorem get_stock_info_total_cases (ticker_symbol : String)
    (outcome : HttpOutcome QuoteData) :
    (∀ e, outcome = HttpOutcome.exc e →
        get_stock_info ticker_symbol outcome = "Error: " ++ e)
      ∧ (∀ gq price, outcome = HttpOutcome.ok { globalQuote := some gq } →
          gq.lookup "05. price" = some price →
          get_stock_info ticker_symbol outcome = price)
      ∧ (∀ data, outcome = HttpOutcome.ok data →
          (∀ gq, data.globalQuote = some gq → gq.lookup "05. price" = none) →
          get_stock_info ticker_symbol outcome
            = "Could not retrieve price for " ++ ticker_symbol) := by
  refine ⟨?_, ?_, ?_⟩
  · intro e he
    subst he
    rfl
  · intro gq price hok hp
    subst hok
    simp [get_stock_info, hp]
  · intro data hok hnone
    subst hok
    cases hgq : data.globalQuote with
    | none => simp [get_stock_info, hgq]
    | some gq => simp [get_stock_info, hgq, hnone gq hgq]

theorem get_stock_info_total_cases_witness :
    get_stock_info "AAPL" (HttpOutcome.exc "boom") = "Error: " ++ "boom"
      ∧ get_stock_info "MSFT"
          (HttpOutcome.ok { globalQuote := some [("05. price", "123.45")] }) = "123.45"
      ∧ get_stock_info "TSLA" (HttpOutcome.ok { globalQuote := none })
          = "Could not retrieve price for " ++ "TSLA" :=
  ⟨(get_stock_info_total_cases "AAPL" (HttpOutcome.exc "boom")).1 "boom" rfl,
   (get_stock_info_total_cases "MSFT"
      (HttpOutcome.ok { globalQuote := some [("05. price", "123.45")] })).2.1
      [("05. price", "123.45")] "123.45" rfl (by decide),
   (get_stock_info_total_cases "TSLA"
      (HttpOutcome.ok { globalQuote := none })).2.2
      { globalQuote := none } rfl (fun gq hgq => by cases hgq)⟩

/-- A function-call item of an LLM response (`type == "function_call"`):
its `name`, its `call_id`, and its `arguments` JSON string already parsed
into string fields (the tool schema declares the single string argument
`ticker_symbol` as required and strict). -/
structure FunctionCall where
  name : String
  call_id : String
  arguments : List (String × String)
deriving DecidableEq, Repr

/-- One item of `response.output`: a function-call item or any other item
kind (message, reasoning, ...), modelled opaquely. -/
inductive OutputItem where
  | functionCall (fc : FunctionCall)
  | otherItem (tag : Nat)
deriving DecidableEq, Repr

/-- An LLM response as consumed by `get_stock_info_with_api`: its `output`
item list and its `output_text`. -/
structure LLMResponse where
  output : List OutputItem
  output_text : String
deriving DecidableEq, Repr

/-- One entry of the follow-up `input` message list built by
`get_stock_info_with_api`: the original user message, the model's
function-call item passed back verbatim, or a `function_call_output`
item keyed by a `call_id`. -/
inductive Message where
  | user (content : String)
  | modelItem (item : OutputItem)
  | functionCallOutput (call_id : String) (output : String)
deriving DecidableEq, Repr

/-- The `for tool_call in response.output` scan of
`get_stock_info_with_api` (src/invest.py lines 241-242): the first item
that is a function call named `get_stock_info`, if any. -/
def findToolCall : List OutputItem → Option FunctionCall
  | [] => none
  | .functionCall fc :: rest =>
      if fc.name = "get_stock_info" then some fc else findToolCall rest
  | .otherItem _ :: rest => findToolCall rest

/-- Python renders the `None` produced by `args.get` on a missing key as
the string "None" wherever `get_stock_info` interpolates the ticker. -/
def pyStrOpt (o : Option String) : String := o.getD "None"

/-- `StockAnalyzer.get_stock_info_with_api` (src/invest.py lines 227-271),
with the two LLM round trips supplied as oracles: `first` is the response
to the initial request, `second` maps a follow-up message list to the
second response, and `quote` gives the quote-API outcome per ticker
symbol.  If the first response contains a function call named
`get_stock_info`, the local function is executed on the call's parsed
`ticker_symbol` argument, the follow-up list [user message, the model's
function-call item, a `function_call_output` keyed by the call's
`call_id` holding the result] is sent, and the second response's output
text is returned; otherwise the first response's output text is returned
unchanged. -/
def get_stock_info_with_api (ticker : String) (first : LLMResponse)
    (second : List Message → LLMResponse)
    (quote : String → HttpOutcome QuoteData) : String :=
  match findToolCall first.output with
  | some tool_call =>
      let ticker_symbol := pyStrOpt (tool_call.arguments.lookup "ticker_symbol")
      let result := get_stock_info ticker_symbol (quote ticker_symbol)
      let messages : List Message :=
        [Message.user ("Get the current stock information for the ticker: " ++ ticker),
         Message.modelItem (OutputItem.functionCall tool_call),
         Message.functionCallOutput tool_call.call_id result]
      (second messages).output_text
  | none => first.output_text

theorem findToolCall_of_split (pre post : List OutputItem) (fc : FunctionCall)
    (hname : fc.name = "get_stock_info")
    (hpre : ∀ fc', OutputItem.functionCall fc' ∈ pre → fc'.name ≠ "get_stock_info") :
    findToolCall (pre ++ OutputItem.functionCall fc :: post) = some fc := by
  induction pre with
  | nil => simp [findToolCall, hname]
  | cons item pre ih =>
      cases item with
      | functionCall fc' =>
          have : fc'.name ≠ "get_stock_info" := hpre fc' (List.mem_cons_self _ _)
          simp only [List.cons_append, findToolCall, this, if_false]
          exact ih (fun fc'' hm => hpre fc'' (List.mem_cons_of_mem _ hm))
      | otherItem tag =>
          simp only [List.cons_append, findToolCall]
          exact ih (fun fc'' hm => hpre fc'' (List.mem_cons_of_mem _ hm))

theorem findToolCall_of_none (items : List OutputItem)
    (h : ∀ fc, OutputItem.functionCall fc ∈ items → fc.name ≠ "get_stock_info") :
    findToolCall items = none := by
  induction items with
  | nil => rfl
  | cons item items ih =>
      cases item with
      | functionCall fc' =>
          have : fc'.name ≠ "get_stock_info" := h fc' (List.mem_cons_self _ _)
          simp only [findToolCall, this, if_false]
          exact ih (fun fc'' hm => h fc'' (List.mem_cons_of_mem _ hm))
      | otherItem tag =>
          simp only [findToolCall]
          exact ih (fun fc'' hm => h fc'' (List.mem_cons_of_mem _ hm))

/-- C6: the two-step tool-calling protocol.  If the first response's
output contains a function call named `get_stock_info` (the first such
item), the local `get_stock_info` runs on the call's parsed
`ticker_symbol` argument, the follow-up message list holds exactly the
original user message, the model's function-call item, and a
`function_call_output` keyed by that call's `call_id` with the result,
and the second response's output text is returned.  If no such call is
present, the first response's output text is returned unchanged. -/
theorem tool_call_two_step_protocol (ticker : String) (first : LLMResponse)
    (second : List Message → LLMResponse) (quote : String → HttpOutcome QuoteData) :
    (∀ pre post fc, first.output = pre ++ OutputItem.functionCall fc :: post →
        fc.name = "get_stock_info" →
        (∀ fc', OutputItem.functionCall fc' ∈ pre → fc'.name ≠ "get_stock_info") →
        get_stock_info_with_api ticker first second quote
          = (second
              [Message.user ("Get the current stock information for the ticker: " ++ ticker),
               Message.modelItem (OutputItem.functionCall fc),
               Message.functionCallOutput fc.call_id
                 (get_stock_info (pyStrOpt (fc.arguments.lookup "ticker_symbol"))
                   (quote (pyStrOpt (fc.arguments.lookup "ticker_symbol"))))]).output_text)
      ∧ ((∀ fc, OutputItem.functionCall fc ∈ first.output → fc.name ≠ "get_stock_info") →
          get_stock_info_with_api ticker first second quote = first.output_text) := by
  constructor
  · intro pre post fc hsplit hname hpre
    have hfind : findToolCall first.output = some fc := by
      rw [hsplit]
      exact findToolCall_of_split pre post fc hname hpre
    simp [get_stock_info_with_api, hfind]
  · intro hnone
    have hfind : findToolCall first.output = none := findToolCall_of_none _ hnone
    simp [get_stock_info_with_api, hfind]

/-- A concrete first response containing one matching function call after
a non-matching item. -/
def exFirstCall : LLMResponse :=
  { output := [OutputItem.otherItem 7,
               OutputItem.functionCall
                 { name := "get_stock_info", call_id := "call_1",
                   arguments := [("ticker_symbol", "AAPL")] }]
    output_text := "ignored" }

/-- A concrete first response with no matching function call. -/
def exFirstPlain : LLMResponse :=
  { output := [OutputItem.otherItem 3,
               OutputItem.functionCall
                 { name := "some_other_tool", call_id := "call_9", arguments := [] }]
    output_text := "AAPL trades around 123." }

/-- A concrete second-round oracle. -/
def exSecond : List Message → LLMResponse := fun _ =>
  { output := [], output_text := "The current price of AAPL is 123.45." }

/-- A concrete quote oracle. -/
def exQuote : String → HttpOutcome QuoteData := fun _ =>
  HttpOutcome.ok { globalQuote := some [("05. price", "123.45")] }

theorem tool_call_two_step_protocol_witness :
    (exFirstCall.output
        = [OutputItem.otherItem 7]
            ++ OutputItem.functionCall
                 { name := "get_stock_info", call_id := "call_1",
                   arguments := [("ticker_symbol", "AAPL")] } :: []
      ∧ get_stock_info_with_api "AAPL" exFirstCall exSecond exQuote
          = (exSecond
              [Message.user ("Get the current stock information for the ticker: " ++ "AAPL"),
               Message.modelItem (OutputItem.functionCall
                 { name := "get_stock_info", call_id := "call_1",
                   arguments := [("ticker_symbol", "AAPL")] }),
               Message.functionCallOutput "call_1"
                 (get_stock_info
                   (pyStrOpt ([("ticker_symbol", "AAPL")].lookup "ticker_symbol"))
                   (exQuote
                     (pyStrOpt ([("ticker_symbol", "AAPL")].lookup "ticker_symbol"))))]).output_text)
      ∧ get_stock_info_with_api "AAPL" exFirstPlain exSecond exQuote
          = exFirstPlain.output_text :=
  ⟨⟨by decide,
    (tool_call_two_step_protocol "AAPL" exFirstCall exSecond exQuote).1
      [OutputItem.otherItem 7] []
      { name := "get_stock_info", call_id := "call_1",
        arguments := [("ticker_symbol", "AAPL")] }
      (by decide) rfl
      (by
        intro fc' h
        simp only [List.mem_singleton] at h
        exact OutputItem.noConfusion h)⟩,
   (tool_call_two_step_protocol "AAPL" exFirstPlain exSecond exQuote).2
     (by
       intro fc h
       simp only [exFirstPlain, List.mem_cons, List.not_mem_nil, or_false] at h
       rcases h with h | h
       · exact OutputItem.noConfusion h
       · injection h with hfc
         subst hfc
         decide)⟩

/-- ASCII whitespace stripped by Python's `int(str)` conversion. -/
def isPySpace (c : Char) : Bool :=
  c == ' ' || c == '\t' || c == '\n' || c == '\r' || c == '\x0b' || c == '\x0c'

/-- Strip leading and trailing whitespace. -/
def stripPySpaces (cs : List Char) : List Char :=
  ((cs.dropWhile isPySpace).reverse.dropWhile isPySpace).reverse

/-- Numeric value of an ASCII digit character. -/
def digitVal (c : Char) : Nat := c.toNat - 48

/-- Digits possibly separated by single underscores, as accepted after the
first digit by Python's `int(str)`: an underscore must be followed by a
digit, and a non-digit, non-underscore character is a `ValueError`. -/
def udigitsAux (acc : Nat) : List Char → Option Nat
  | [] => some acc
  | '_' :: rest =>
      match rest with
      | c :: rest' => if c.isDigit then udigitsAux (acc * 10 + digitVal c) rest' else none
      | [] => none
  | c :: rest => if c.isDigit then udigitsAux (acc * 10 + digitVal c) rest else none

/-- A nonempty digit group: first character must be a digit. -/
def udigits : List Char → Option Nat
  | [] => none
  | c :: rest => if c.isDigit then udigitsAux (digitVal c) rest else none

/-- Python's `int(str)` for base 10 (ASCII fragment: ASCII whitespace and
digits; Unicode digits and whitespace are not modelled), returning `none`
where Python raises `ValueError`. -/
def pyIntParse (s : String) : Option Int :=
  match stripPySpaces s.toList with
  | '+' :: rest => (udigits rest).map (fun n => (n : Int))
  | '-' :: rest => (udigits rest).map (fun n => -(n : Int))
  | cs => (udigits cs).map (fun n => (n : Int))

/-- An entry of the Eleven Labs voice catalog as used by `select_voice`:
its displayed `name` and its `voice_id`. -/
structure Voice where
  name : String
  voice_id : String
deriving DecidableEq, Repr

/-- The fixed fallback voice identifier (Rachel). -/
def defaultVoiceId : String := "21m00Tcm4TlvDq8ikWAM"

/-- `BrainRotGenerator.select_voice` (src/invest.py lines 494-531), with
the catalog result and the user's line of input as parameters: `if not
voices` (the catalog call returned `None` or an empty list) fall back to
the default id; empty input falls back; `int(choice)` raising
`ValueError` falls back; an integer outside `1..len(voices)` falls back;
otherwise return `voices[choice-1]["voice_id"]`. -/
def select_voice (voices : Option (List Voice)) (choice : String) : String :=
  match voices with
  | none => defaultVoiceId
  | some vs =>
      if vs.isEmpty then defaultVoiceId
      else if choice = "" then defaultVoiceId
      else
        match pyIntParse choice with
        | none => defaultVoiceId
        | some c =>
            if h : 1 ≤ c ∧ c ≤ (vs.length : Int) then
              (vs.get ⟨(c - 1).toNat, by omega⟩).voice_id
            else defaultVoiceId

/-- C7: `select_voice` is total (never raises on malformed input) and
returns the fixed default identifier whenever the voice list is null or
empty, the input is empty, the input is non-numeric, or the number is
outside `1..len(voices)`; it returns the chosen voice's `voice_id`
exactly when the input parses to an integer in that range. -/
theorem voice_selection_fallbacks (voices : Option (List Voice)) (choice : String) :
    (voices = none → select_voice voices choice = defaultVoiceId)
      ∧ (voices = some [] → select_voice voices choice = defaultVoiceId)
      ∧ (choice = "" → select_voice voices choice = defaultVoiceId)
      ∧ (pyIntParse choice = none → select_voice voices choice = defaultVoiceId)
      ∧ (∀ vs c, voices = some vs → pyIntParse choice = some c →
          ¬(1 ≤ c ∧ c ≤ (vs.length : Int)) →
          select_voice voices choice = defaultVoiceId)
      ∧ (∀ vs c v, voices = some vs → choice ≠ "" → pyIntParse choice = some c →
          1 ≤ c → c ≤ (vs.length : Int) → vs[(c - 1).toNat]? = some v →
          select_voice voices choice = v.voice_id) := by
  refine ⟨?_, ?_, ?_, ?_, ?_, ?_⟩
  · intro h; subst h; rfl
  · intro h; subst h; rfl
  · intro h
    subst h
    cases voices with
    | none => rfl
    | some vs => cases vs with | nil => rfl | cons a l => simp [select_voice]
  · intro h
    cases voices with
    | none => rfl
    | some vs =>
        cases vs with
        | nil => rfl
        | cons a l =>
            by_cases hc : choice = ""
            · simp [select_voice, hc]
            · simp [select_voice, hc, h]
  · intro vs c hv hp hrange
    subst hv
    cases vs with
    | nil => rfl
    | cons a l =>
        by_cases hc : choice = ""
        · simp [select_voice, hc]
        · simp only [select_voice, List.isEmpty_cons, Bool.false_eq_true, if_false,
            hc, if_neg, hp]
          rw [dif_neg hrange]
  · intro vs c v hv hc hp h1 h2 hget
    subst hv
    cases vs with
    | nil =>
        exfalso
        simp only [List.length_nil, Nat.cast_zero] at h2
        omega
    | cons a l =>
        have hcond : 1 ≤ c ∧ c ≤ ((a :: l).length : Int) := ⟨h1, h2⟩
        have hlt : (c - 1).toNat < (a :: l).length := by omega
        have h3 := List.getElem?_eq_getElem hlt (l := a :: l)
        rw [hget] at h3
        have hv' : (a :: l)[(c - 1).toNat] = v := (Option.some_inj.mp h3).symm
        simp only [select_voice, List.isEmpty_cons, Bool.false_eq_true, if_false,
          hc, if_neg, hp]
        rw [dif_pos hcond]
        rw [List.get_eq_getElem]
        exact congrArg Voice.voice_id hv'

/-- A concrete five-voice catalog. -/
def exVoices : List Voice :=
  [{ name := "A", voice_id := "id1" }, { name := "B", voice_id := "id2" },
   { name := "C", voice_id := "id3" }, { name := "D", voice_id := "id4" },
   { name := "E", voice_id := "id5" }]

theorem voice_selection_fallbacks_witness :
    select_voice none "2" = defaultVoiceId
      ∧ select_voice (some []) "2" = defaultVoiceId
      ∧ select_voice (some exVoices) "" = defaultVoiceId
      ∧ select_voice (some exVoices) "abc" = defaultVoiceId
      ∧ select_voice (some exVoices) "99" = defaultVoiceId
      ∧ select_voice (some exVoices) "3" = (Voice.mk "C" "id3").voice_id :=
  ⟨(voice_selection_fallbacks none "2").1 rfl,
   (voice_selection_fallbacks (some []) "2").2.1 rfl,
   (voice_selection_fallbacks (some exVoices) "").2.2.1 rfl,
   (voice_selection_fallbacks (some exVoices) "abc").2.2.2.1 (by decide),
   (voice_selection_fallbacks (some exVoices) "99").2.2.2.2.1 exVoices 99 rfl
     (by decide) (by decide),
   (voice_selection_fallbacks (some exVoices) "3").2.2.2.2.2 exVoices 3
     (Voice.mk "C" "id3") rfl (by decide) (by decide) (by decide) (by decide)
     (by decide)⟩

/-- A moviepy clip as far as `create_brain_rot_video`'s duration logic
observes it: its declared `duration` and the start offset into the source
material selected by `subclip` (durations modelled as exact rationals). -/
structure Clip where
  subStart : ℚ
  duration : ℚ
deriving DecidableEq, Repr

/-- moviepy's `set_duration`: change only the declared duration; the
underlying frames are not repeated. -/
def Clip.set_duration (c : Clip) (d : ℚ) : Clip := { c with duration := d }

/-- moviepy's `subclip(t0, t1)`: keep the interval from `t0` to `t1`. -/
def Clip.subclip (c : Clip) (t0 t1 : ℚ) : Clip :=
  { subStart := c.subStart + t0, duration := t1 - t0 }

/-- Python's `int()` applied to a number: truncation toward zero. -/
def pyTrunc (q : ℚ) : ℤ := if 0 ≤ q then ⌊q⌋ else -⌊-q⌋

/-- The duration-reconciliation step of
`BrainRotGenerator.create_brain_rot_video` (src/invest.py lines 659-670):
if the audio is longer than the video, compute
`loops = int(audio.duration / video.duration) + 1` (only logged) and set
the video's declared duration to the audio duration; otherwise trim the
video with `subclip(0, audio.duration)`.  Returns the reconciled video
clip and the computed loop count, if any. -/
def create_brain_rot_video_timing (video audio : Clip) : Clip × Option ℤ :=
  if audio.duration > video.duration then
    (video.set_duration audio.duration,
     some (pyTrunc (audio.duration / video.duration) + 1))
  else
    (video.subclip 0 audio.duration, none)

/-- C8: for positive audio and video durations, if the audio is longer
the loop count equals `floor(audio/video) + 1` and the video's declared
duration is set to the audio duration (stretching: the source offset is
unchanged, no frames are repeated); otherwise the video is trimmed to the
interval from time 0 to the audio duration.  In both cases the output
video duration equals the audio duration. -/
theorem duration_reconciliation (video audio : Clip)
    (ha : 0 < audio.duration) (hv : 0 < video.duration) :
    (create_brain_rot_video_timing video audio).1.duration = audio.duration
      ∧ (audio.duration > video.duration →
          (create_brain_rot_video_timing video audio).2
              = some (⌊audio.duration / video.duration⌋ + 1)
            ∧ (create_brain_rot_video_timing video audio).1
              = video.set_duration audio.duration)
      ∧ (¬ audio.duration > video.duration →
          (create_brain_rot_video_timing video audio).2 = none
            ∧ (create_brain_rot_video_timing video audio).1
              = video.subclip 0 audio.duration) := by
  have htr : pyTrunc (audio.duration / video.duration)
      = ⌊audio.duration / video.duration⌋ := by
    unfold pyTrunc
    rw [if_pos (div_nonneg ha.le hv.le)]
  refine ⟨?_, ?_, ?_⟩
  · unfold create_brain_rot_video_timing
    by_cases h : audio.duration > video.duration
    · simp [h, Clip.set_duration]
    · simp [h, Clip.subclip]
  · intro h
    unfold create_brain_rot_video_timing
    simp [h, htr]
  · intro h
    unfold create_brain_rot_video_timing
    simp [h]

theorem duration_reconciliation_witness :
    (0 < (30 : ℚ) ∧ 0 < (10 : ℚ)
      ∧ (create_brain_rot_video_timing (Clip.mk 0 10) (Clip.mk 0 30)).1.duration = 30
      ∧ (create_brain_rot_video_timing (Clip.mk 0 10) (Clip.mk 0 30)).2 = some (⌊(30 : ℚ) / 10⌋ + 1)
      ∧ (create_brain_rot_video_timing (Clip.mk 0 10) (Clip.mk 0 30)).1
        = (Clip.mk 0 10).set_duration 30)
      ∧ ((create_brain_rot_video_timing (Clip.mk 0 30) (Clip.mk 0 10)).1.duration = 10
        ∧ (create_brain_rot_video_timing (Clip.mk 0 30) (Clip.mk 0 10)).2 = none
        ∧ (create_brain_rot_video_timing (Clip.mk 0 30) (Clip.mk 0 10)).1
          = (Clip.mk 0 30).subclip 0 10) :=
  ⟨⟨by norm_num, by norm_num,
    (duration_reconciliation (Clip.mk 0 10) (Clip.mk 0 30)
      (by norm_num) (by norm_num)).1,
    ((duration_reconciliation (Clip.mk 0 10) (Clip.mk 0 30)
      (by norm_num) (by norm_num)).2.1 (by norm_num)).1,
    ((duration_reconciliation (Clip.mk 0 10) (Clip.mk 0 30)
      (by norm_num) (by norm_num)).2.1 (by norm_num)).2⟩,
   ⟨(duration_reconciliation (Clip.mk 0 30) (Clip.mk 0 10)
      (by norm_num) (by norm_num)).1,
    ((duration_reconciliation (Clip.mk 0 30) (Clip.mk 0 10)
      (by norm_num) (by norm_num)).2.2 (by norm_num)).1,
    ((duration_reconciliation (Clip.mk 0 30) (Clip.mk 0 10)
      (by norm_num) (by norm_num)).2.2 (by norm_num)).2⟩⟩

/-- The Eleven Labs synthesis response as `text_to_speech` observes it:
its status code, its body bytes, and its error text. -/
structure TTSResponse where
  status_code : Nat
  content : List Nat
  text : String
deriving DecidableEq, Repr

/-- `BrainRotGenerator.text_to_speech` (src/invest.py lines 533-585), with
the credential, the voice-catalog/selection inputs, the HTTP outcome of
the synthesis POST, and the filesystem (an association list from path to
byte content) as parameters.  Returns the written path (or `none`) and
the filesystem after the call: a missing key, an exception, or a non-200
status writes nothing and returns `none`; a 200 response writes the body
bytes verbatim to `output_file` and returns that path. -/
def text_to_speech (api_key : Option String) (voices : Option (List Voice))
    (choiceInput : String) (outcome : HttpOutcome TTSResponse)
    (fs : List (String × List Nat)) (output_file : String) :
    Option String × List (String × List Nat) :=
  match api_key with
  | none => (none, fs)
  | some _ =>
      let _voice_id := select_voice voices choiceInput
      match outcome with
      | .exc _ => (none, fs)
      | .ok response =>
          if response.status_code = 200 then
            (some output_file, (output_file, response.content) :: fs)
          else (none, fs)

/-- C9: a synthesis request that raises or returns any status other than
200 yields `none` and leaves the filesystem untouched (no file written);
only a 200 response writes the response bytes verbatim to the output file
and returns its path. -/
theorem synthesis_write_only_on_200 (api_key : Option String)
    (voices : Option (List Voice)) (choiceInput : String)
    (outcome : HttpOutcome TTSResponse) (fs : List (String × List Nat))
    (output_file : String) :
    (∀ e, outcome = HttpOutcome.exc e →
        text_to_speech api_key voices choiceInput outcome fs output_file = (none, fs))
      ∧ (∀ r, outcome = HttpOutcome.ok r → r.status_code ≠ 200 →
          text_to_speech api_key voices choiceInput outcome fs output_file = (none, fs))
      ∧ (∀ k r, api_key = some k → outcome = HttpOutcome.ok r → r.status_code = 200 →
          text_to_speech api_key voices choiceInput outcome fs output_file
            = (some output_file, (output_file, r.content) :: fs)) := by
  refine ⟨?_, ?_, ?_⟩
  · intro e he
    subst he
    cases api_key with
    | none => rfl
    | some k => rfl
  · intro r hr hs
    subst hr
    cases api_key with
    | none => rfl
    | some k => simp [text_to_speech, hs]
  · intro k r hk hr hs
    subst hk
    subst hr
    simp [text_to_speech, hs]

theorem synthesis_write_only_on_200_witness :
    text_to_speech (some "key") none "1" (HttpOutcome.exc "timeout") [] "speech.mp3"
        = (none, [])
      ∧ text_to_speech (some "key") none "1"
          (HttpOutcome.ok { status_code := 401, content := [1, 2], text := "denied" })
          [] "speech.mp3" = (none, [])
      ∧ text_to_speech (some "key") none "1"
          (HttpOutcome.ok { status_code := 200, content := [9, 8, 7], text := "" })
          [] "speech.mp3"
        = (some "speech.mp3", [("speech.mp3", [9, 8, 7])]) :=
  ⟨(synthesis_write_only_on_200 (some "key") none "1" (HttpOutcome.exc "timeout")
      [] "speech.mp3").1 "timeout" rfl,
   (synthesis_write_only_on_200 (some "key") none "1"
      (HttpOutcome.ok { status_code := 401, content := [1, 2], text := "denied" })
      [] "speech.mp3").2.1
      { status_code := 401, content := [1, 2], text := "denied" } rfl (by decide),
   (synthesis_write_only_on_200 (some "key") none "1"
      (HttpOutcome.ok { status_code := 200, content := [9, 8, 7], text := "" })
      [] "speech.mp3").2.2 "key"
      { status_code := 200, content := [9, 8, 7], text := "" } rfl rfl rfl⟩
